import Mathlib

set_option maxRecDepth 8192

/-!
Shallow embedding of `backend/socrates_comparison/_data.py` (the arroyo
background refresh worker and its cache / resource-lifecycle manager).

Machine model:
* filesystem paths are lists of components (`pathlib.Path.parts`);
* the pickled cache record at `_cd_path` is modelled by an optional
  `PickleContent` (absent file, unreadable content, or a stored
  `conjunction_data` value);
* `mizuba` polyjectories are modelled by an object identity (`oid`, standing
  for Python object identity, which is what `weakref.ref` tracks) plus the
  absolute path of their data directory;
* weak-reference liveness and `shutil.rmtree` failures are supplied as
  boolean oracles, so that every reachable success/failure interleaving of
  the source can be examined;
* the worker loop `_data_processor.run` is modelled one iteration at a time
  as a function from the mutable state it touches (registry, archive,
  presence of the on-disk record) and an environment describing the outcome
  of each effect (record age, computation result, persistence success,
  cleanup failures) to the new state plus a trace of the events the
  iteration performed, in order.
-/

/-- Filesystem paths, as their list of components (`pathlib.Path.parts`). -/
abbrev FPath := List String

/-- Polars dtypes occurring in `_conj_df_schema`. -/
inductive PLType where
  | uint64
  | str
  | datetimeNsUTC
  | float64
deriving DecidableEq

/-- A polars schema: ordered association of column names to dtypes. -/
abbrev PLSchema := List (String × PLType)

/-- The conjunctions dataframe schema `_conj_df_schema`. -/
def conj_df_schema : PLSchema :=
  [("norad_id_i", PLType.uint64),
   ("norad_id_j", PLType.uint64),
   ("object_name_i", PLType.str),
   ("object_name_j", PLType.str),
   ("ops_status_i", PLType.str),
   ("ops_status_j", PLType.str),
   ("tca", PLType.datetimeNsUTC),
   ("dca", PLType.float64),
   ("relative_speed", PLType.float64),
   ("tca_diff", PLType.float64),
   ("dca_diff", PLType.float64),
   ("relative_speed_diff", PLType.float64)]

/-- A polars DataFrame, abstracted to its schema: no verified behavior of
`_data.py` depends on row contents, only on the schema comparison
`df.schema == _conj_df_schema`. -/
structure DataFrame where
  schema : PLSchema
deriving DecidableEq

/-- `_cd_cur_version`: current version of the conjunctions data class. -/
def cd_cur_version : Nat := 1

/-- The `conjunction_data` frozen dataclass, with the source's field
defaults. `comp_time` (a nonnegative float of seconds in the source) is
modelled at integer granularity; no verified behavior depends on it. -/
structure conjunction_data where
  version : Nat := cd_cur_version
  df : DataFrame := ⟨conj_df_schema⟩
  n_missed_conj : Nat := 0
  timestamp : Option String := none
  comp_time : Nat := 0
  date_begin : Option String := none
  date_end : Option String := none
  pj_dir_name : Option String := none
  norad_ids : Option (List Nat) := none
deriving DecidableEq

/-- The default-constructed `conjunction_data()` (the empty bootstrap data). -/
def empty_conjunction_data : conjunction_data := {}

/-- `_pj_data_prefix`: prefix of polyjectory data directories in the cache
dir (named `pj_data_pref` here for lexical reasons only). -/
def pj_data_pref : String := "mizuba_polyjectory"

/-- The resolved absolute path of the cache dir `_cache_dir`, abstracted to
a fixed one-component root. -/
def cache_dir_parts : FPath := ["cache"]

/-- A `mizuba.polyjectory` handle: Python object identity (`oid`, what a
`weakref.ref` is keyed on) plus the absolute path of its data directory
(`data_dir`). -/
structure polyjectory where
  oid : Nat
  data_dir : FPath
deriving DecidableEq

/-- Last component of a path (`Path.parts[-1]`). -/
def dirNameOf (p : FPath) : String := p.getLastD ""

/-- Content found at the `_cd_path` cache file: either bytes that fail to
read or unpickle (`garbage`), or a successfully unpickled
`conjunction_data` instance. -/
inductive PickleContent where
  | garbage
  | record (cd : conjunction_data)
deriving DecidableEq

/-- The exceptions the `try` block of `_conj_init_setup` can raise: a
read or unpickling failure, the `ValueError` on a version mismatch, the
`assert ret.pj_dir_name is not None` failing, or
`mz.polyjectory.mount` failing. All are subclasses of `Exception`, hence
all are caught by the `except Exception` clause. -/
inductive LoadErr where
  | readFail
  | versionMismatch (found : Nat)
  | assertPjDirName
  | mountFail (dir : String)
deriving DecidableEq

/-- The `try` block of `_conj_init_setup`, for an existing cache file with
content `content`: unpickle, check the version, assert `pj_dir_name` is
present, mount the polyjectory. `mount dn` is the outcome oracle for
`mz.polyjectory.mount (_cache_dir / dn)` (`none` = the mount raised). -/
def conj_load_body (mount : String → Option polyjectory)
    (content : PickleContent) :
    Except LoadErr (conjunction_data × polyjectory) :=
  match content with
  | PickleContent.garbage => Except.error LoadErr.readFail
  | PickleContent.record ret =>
    if ret.version ≠ cd_cur_version then
      Except.error (LoadErr.versionMismatch ret.version)
    else
      match ret.pj_dir_name with
      | none => Except.error LoadErr.assertPjDirName
      | some dn =>
        match mount dn with
        | none => Except.error (LoadErr.mountFail dn)
        | some pj => Except.ok (ret, pj)

/-- `_conj_init_setup`: initial setup of the conjunctions data. Input: the
on-disk state at `_cd_path` (`none` = file absent) and the mount oracle.
Output: the `(conjunction_data, polyjectory | None)` pair returned to the
caller, together with the on-disk state afterwards (`none` = the record was
deleted / never existed). Any exception of the `try` block is caught:
the record is unlinked and the empty bootstrap data returned. -/
def conj_init_setup (mount : String → Option polyjectory)
    (disk : Option PickleContent) :
    (conjunction_data × Option polyjectory) × Option PickleContent :=
  match disk with
  | none => ((empty_conjunction_data, none), none)
  | some content =>
    match conj_load_body mount content with
    | Except.ok (cd, pj) => ((cd, some pj), some content)
    | Except.error _ => ((empty_conjunction_data, none), none)

/-- An entry of `_data_processor._pj_archive`: in the source a pair
`(weakref.ref(pj), pj.data_dir)`. The weak reference is modelled by the
identity of its referent (`pj`), with liveness supplied separately by an
oracle; storing `pj` here does not model a strong reference. -/
structure ArchEntry where
  pj : polyjectory
  path : FPath
deriving DecidableEq

/-- An entry directly under the cache dir as seen by `_cache_dir.iterdir()`:
its name and whether it is a directory. -/
structure FSEntry where
  name : String
  isDir : Bool
deriving DecidableEq

/-- The fully-resolved absolute path of a cache-dir entry
(`cur_dir.resolve()`). -/
def resolveEntry (e : FSEntry) : FPath := cache_dir_parts ++ [e.name]

/-- Python `str.startswith`, stated on the character lists of the two
strings (so that it evaluates inside the kernel). -/
def strStartsWith (s p : String) : Bool := p.data.isPrefixOf s.data

/-- First loop of `_cache_pj_cleanup` (the sweep over `_pj_archive`):
returns `(new_pj_archive, removed directories in order, abort)`.
For each entry whose weak reference is dead the directory is removed by a
`shutil.rmtree` call that is NOT wrapped in a `try` block: if `rmFail`
holds for it the exception propagates (`abort = some path`), entries after
it are not processed, and — because the assignment
`self._pj_archive = new_pj_archive` is only reached after the loop — the
partially built new archive is discarded. -/
def sweepLoop (live : polyjectory → Bool) (rmFail : FPath → Bool) :
    List ArchEntry → List ArchEntry × List FPath × Option FPath
  | [] => ([], [], none)
  | a :: rest =>
    if live a.pj then
      let r := sweepLoop live rmFail rest
      (a :: r.1, r.2.1, r.2.2)
    else if rmFail a.path then
      ([], [], some a.path)
    else
      let r := sweepLoop live rmFail rest
      (r.1, a.path :: r.2.1, r.2.2)

/-- Second loop of `_cache_pj_cleanup` (the orphan scan over
`_cache_dir.iterdir()`): returns `(attempted deletions, successful
deletions)`, both as resolved absolute paths in iteration order. Non-dirs,
names not starting with the polyjectory prefix, and paths present in
`alivePaths` (the set built from the new archive) are skipped; for the
rest, `shutil.rmtree` is attempted inside a `try` block, so a failure is
logged and ignored. -/
def orphanLoop (rmFail : FPath → Bool) (alivePaths : List FPath) :
    List FSEntry → List FPath × List FPath
  | [] => ([], [])
  | e :: rest =>
    let cur := resolveEntry e
    if e.isDir = false then
      orphanLoop rmFail alivePaths rest
    else if strStartsWith (dirNameOf cur) pj_data_pref = false then
      orphanLoop rmFail alivePaths rest
    else if cur ∈ alivePaths then
      orphanLoop rmFail alivePaths rest
    else
      let r := orphanLoop rmFail alivePaths rest
      (cur :: r.1, if rmFail cur then r.2 else cur :: r.2)

/-- Result of one `_cache_pj_cleanup` call. `aborted = some p` means the
unguarded `shutil.rmtree(p)` of the sweep raised and the exception
propagated to the caller (leaving `_pj_archive` unchanged and skipping the
orphan scan). -/
structure CleanupOut where
  archive : List ArchEntry
  sweepRemoved : List FPath
  aborted : Option FPath
  orphanAttempted : List FPath
  orphanRemoved : List FPath
deriving DecidableEq

/-- `_data_processor._cache_pj_cleanup`: sweep the archive, then (if the
sweep did not raise) reconcile orphan directories under the cache dir.
`live` tells whether a weak reference still resolves (`wr() is not None`);
`rmFail` tells whether a given `shutil.rmtree` call raises. -/
def cache_pj_cleanup (live : polyjectory → Bool) (rmFail : FPath → Bool)
    (archive : List ArchEntry) (fs : List FSEntry) : CleanupOut :=
  let s := sweepLoop live rmFail archive
  match s.2.2 with
  | some p => ⟨archive, s.2.1, some p, [], []⟩
  | none =>
    let alivePaths := s.1.map ArchEntry.path
    let o := orphanLoop rmFail alivePaths fs
    ⟨s.1, s.2.1, none, o.1, o.2⟩

/-- `MAX_AGE`: maximum age for the conjunctions data, in seconds. -/
def MAX_AGE : Int := 4 * 3600

/-- Events performed by one iteration of the `_data_processor.run` loop,
in program order. -/
inductive Event where
  | cleanup
  | sleepFresh (t : Int)
  | compute
  | persistWrite
  | persistFail
  | unlinkRecord
  | registerPj (p : FPath)
  | publish (cd : conjunction_data)
  | logError
  | sleepRetry
  | sleepMax
deriving DecidableEq

/-- The tuple returned by a successful `_create_new_conj()` call, after the
string conversions (`date_begin.utc.iso` etc.). -/
structure CompOut where
  n_missed_conj : Nat
  df : DataFrame
  pj : polyjectory
  norad_ids : List Nat
  date_begin : String
  date_end : String
deriving DecidableEq

/-- Environment of one loop iteration: the outcome of every effect the
iteration may perform. `ageVal` is the age in seconds of the cache record
(used only when the record exists); `compResult = none` means
`_create_new_conj()` raised; `persistOk` is whether the
`open`/`pickle.dump` of the record succeeds; the two cleanup flags say
whether the `_cache_pj_cleanup()` call made inside the `try` block
(before a fresh-sleep or after a publish), respectively the one made in
the `except` handler, raises. -/
structure IterEnv where
  ageVal : Int
  compResult : Option CompOut
  persistOk : Bool
  timestamp : String
  comp_time : Nat
  cleanupTryFails : Bool
  cleanupHandlerFails : Bool
deriving DecidableEq

/-- The registry: the pair of module globals `(_conj, _pj)` guarded by
`_conj_lock`, read by `_get_conjunctions` and replaced atomically by
`_set_conjunctions`. -/
abbrev RegState := conjunction_data × Option polyjectory

/-- Result of one loop iteration: new registry value, new archive, whether
the record file exists at `_cd_path` afterwards, the event trace, and
whether an exception escaped the iteration (which terminates `run`). -/
structure IterOut where
  reg : RegState
  archive : List ArchEntry
  cdOnDisk : Bool
  trace : List Event
  crashed : Bool
deriving DecidableEq

/-- The `except Exception` handler of the loop body: log the error, run a
cleanup pass, sleep 10 seconds. If that cleanup pass itself raises, the
exception escapes `run` (there is no enclosing handler): no retry sleep
happens and the thread dies. -/
def handlerEvents (env : IterEnv) : List Event × Bool :=
  if env.cleanupHandlerFails then
    ([Event.logError, Event.cleanup], true)
  else
    ([Event.logError, Event.cleanup, Event.sleepRetry], false)

/-- The new `conjunction_data` built in the loop body from a successful
computation (all fields as in the source; `version` is the dataclass
default `_cd_cur_version`). -/
def buildCData (env : IterEnv) (r : CompOut) : conjunction_data :=
  { n_missed_conj := r.n_missed_conj
    df := r.df
    timestamp := some env.timestamp
    comp_time := env.comp_time
    date_begin := some r.date_begin
    date_end := some r.date_end
    pj_dir_name := some (dirNameOf r.pj.data_dir)
    norad_ids := some r.norad_ids }

/-- The stale/absent-record part of the loop body: invoke
`_create_new_conj`, check the dataframe schema (`assert`), build the new
data, persist it, register the polyjectory, publish, cleanup, long sleep;
any exception goes to the `except` handler, with the persistence failure
first unlinking `_cd_path` (`missing_ok=True`) before re-raising. -/
def runIterCompute (reg : RegState) (archive : List ArchEntry)
    (cdOnDisk : Bool) (env : IterEnv) : IterOut :=
  match env.compResult with
  | none =>
    let h := handlerEvents env
    ⟨reg, archive, cdOnDisk, Event.compute :: h.1, h.2⟩
  | some r =>
    if r.df.schema ≠ conj_df_schema then
      let h := handlerEvents env
      ⟨reg, archive, cdOnDisk, Event.compute :: h.1, h.2⟩
    else
      let cdata := buildCData env r
      if env.persistOk then
        let arch2 := archive ++ [⟨r.pj, r.pj.data_dir⟩]
        if env.cleanupTryFails then
          let h := handlerEvents env
          ⟨(cdata, some r.pj), arch2, true,
            [Event.compute, Event.persistWrite, Event.registerPj r.pj.data_dir,
              Event.publish cdata, Event.cleanup] ++ h.1, h.2⟩
        else
          ⟨(cdata, some r.pj), arch2, true,
            [Event.compute, Event.persistWrite, Event.registerPj r.pj.data_dir,
              Event.publish cdata, Event.cleanup, Event.sleepMax], false⟩
      else
        let h := handlerEvents env
        ⟨reg, archive, false,
          [Event.compute, Event.persistFail, Event.unlinkRecord] ++ h.1, h.2⟩

/-- One iteration of the `while not self._stop_event.is_set()` loop body of
`_data_processor.run`. `conj_age` is `None` when the record file does not
exist, else the measured age; the freshness guard is the source's
`if conj_age and conj_age < MAX_AGE` — Python truthiness, so an age of
exactly 0 fails the guard and falls through to recomputation. -/
def runIter (reg : RegState) (archive : List ArchEntry) (cdOnDisk : Bool)
    (env : IterEnv) : IterOut :=
  let conj_age : Option Int := if cdOnDisk then some env.ageVal else none
  match conj_age with
  | some a =>
    if a ≠ 0 ∧ a < MAX_AGE then
      if env.cleanupTryFails then
        let h := handlerEvents env
        ⟨reg, archive, cdOnDisk, Event.cleanup :: h.1, h.2⟩
      else
        ⟨reg, archive, cdOnDisk,
          [Event.cleanup, Event.sleepFresh (MAX_AGE - a)], false⟩
    else
      runIterCompute reg archive cdOnDisk env
  | none => runIterCompute reg archive cdOnDisk env

/-- How a `_data_processor.run` execution ends in the model: `stopped` =
the stop event was observed at loop entry (the final cleanup pass then
runs before the thread returns); `crashed` = an exception escaped an
iteration; `fuelOut` = the supplied environment list was exhausted with
the loop still running (a model artifact standing for a still-live
worker). -/
inductive WorkerEnd where
  | stopped
  | crashed
  | fuelOut
deriving DecidableEq

/-- The `run` loop: each list element supplies the value of
`self._stop_event.is_set()` observed at loop entry and the environment of
the iteration that runs if it is false. Returns the concatenated event
trace and how the execution ended. -/
def runLoop (reg : RegState) (archive : List ArchEntry) (cdOnDisk : Bool) :
    List (Bool × IterEnv) → List Event × WorkerEnd
  | [] => ([], WorkerEnd.fuelOut)
  | (stop, env) :: rest =>
    if stop then ([Event.cleanup], WorkerEnd.stopped)
    else
      let out := runIter reg archive cdOnDisk env
      if out.crashed then (out.trace, WorkerEnd.crashed)
      else
        let r := runLoop out.reg out.archive out.cdOnDisk rest
        (out.trace ++ r.1, r.2)

/-- A reader call site: what it retains from a `_get_conjunctions()` call —
possibly the `conjunction_data` value, and possibly the polyjectory. The
two are retained independently because `_get_conjunctions` returns them as
a tuple and `conjunction_data` holds no reference to the polyjectory (only
the directory-name string `pj_dir_name`). -/
structure SnapReader where
  snap : Option conjunction_data
  pj : Option polyjectory
deriving DecidableEq

/-- Strong-reference state of the system: the registry globals `_conj` and
`_pj`, plus the readers currently retaining values. -/
structure SysState where
  conj : conjunction_data
  pj : Option polyjectory
  readers : List SnapReader
deriving DecidableEq

/-- Whether a strong reference to polyjectory `b` exists: the registry
global `_pj` is `b`, or some reader retains `b`. This is exactly the
condition under which `weakref.ref(b)` still resolves. -/
def strongly_referenced (s : SysState) (b : polyjectory) : Bool :=
  decide (s.pj = some b) || s.readers.any (fun r => decide (r.pj = some b))

/-- A `conjunction_data` value is reachable: it is the registry's current
value or some reader retains it. -/
def snapshot_reachable (s : SysState) (cd : conjunction_data) : Prop :=
  s.conj = cd ∨ ∃ r ∈ s.readers, r.snap = some cd

/-- There is a live (strongly referenced, hence openable) polyjectory
whose data directory has the given name. -/
def bundle_live_for (s : SysState) (dn : String) : Prop :=
  ∃ b : polyjectory, strongly_referenced s b = true ∧ dirNameOf b.data_dir = dn

/-- Concrete polyjectory used in counterexamples: the superseded bundle. -/
def pjOld : polyjectory := ⟨0, ["cache", "mizuba_polyjectory_old"]⟩

/-- Concrete polyjectory used in counterexamples: the current bundle. -/
def pjNew : polyjectory := ⟨1, ["cache", "mizuba_polyjectory_new"]⟩

/-- Concrete snapshot referencing `pjOld`'s directory by name. -/
def snapOld : conjunction_data :=
  { pj_dir_name := some "mizuba_polyjectory_old", timestamp := some "t0" }

/-- Concrete snapshot referencing `pjNew`'s directory by name. -/
def snapNew : conjunction_data :=
  { pj_dir_name := some "mizuba_polyjectory_new", timestamp := some "t1" }

/-- Concrete system state: the registry has published `snapNew`/`pjNew`;
one reader still retains `snapOld` but dropped its polyjectory reference. -/
def sEx : SysState :=
  { conj := snapNew, pj := some pjNew, readers := [⟨some snapOld, none⟩] }

/-- Concrete dead archive entry whose directory deletion will be made to
fail. -/
def deadEntry : ArchEntry := ⟨pjOld, pjOld.data_dir⟩

/-- Concrete computation output with the correct schema. -/
def compOutEx : CompOut :=
  ⟨3, ⟨conj_df_schema⟩, pjNew, [42, 43], "2026-01-01 00:00:00", "2026-01-08 00:00:00"⟩

/-- Concrete iteration environment in which persistence fails. -/
def envPersistFail : IterEnv :=
  ⟨0, some compOutEx, false, "2026-01-01 04:00:00", 120, false, false⟩

/-- Concrete iteration environment in which everything succeeds. -/
def envAllOk : IterEnv :=
  ⟨0, some compOutEx, true, "2026-01-01 04:00:00", 120, false, false⟩

/-- Concrete iteration environment with a cache record of age exactly 0. -/
def envAgeZero : IterEnv :=
  ⟨0, some compOutEx, true, "2026-01-01 04:00:00", 120, false, false⟩

/-- Concrete iteration environment with a fresh record of age 1 second. -/
def envAgeOne : IterEnv :=
  ⟨1, some compOutEx, true, "2026-01-01 04:00:00", 120, false, false⟩

/-- Concrete iteration environment: the computation raises and the cleanup
pass run by the `except` handler raises as well. -/
def envCrash : IterEnv :=
  ⟨0, none, true, "2026-01-01 04:00:00", 0, false, true⟩

/-- C5: on any on-disk state, `_conj_init_setup` handles every failure of
its `try` block (read/unpickle failure, version mismatch, missing
`pj_dir_name`, mount failure) by deleting the record and returning the
empty bootstrap data with no polyjectory; in particular a record whose
stored version is one less than `_cd_cur_version` is treated as absent. -/
theorem C5_try_load_never_crashes (mount : String → Option polyjectory)
    (disk : Option PickleContent) :
    (∀ content e, disk = some content →
        conj_load_body mount content = Except.error e →
        conj_init_setup mount disk = ((empty_conjunction_data, none), none))
    ∧ (∀ cd, disk = some (PickleContent.record cd) →
        cd.version + 1 = cd_cur_version →
        conj_init_setup mount disk = ((empty_conjunction_data, none), none)) := by
  constructor
  · intro content e hd he
    subst hd
    simp [conj_init_setup, he]
  · intro cd hd hv
    subst hd
    have hne : cd.version ≠ cd_cur_version := by omega
    simp [conj_init_setup, conj_load_body, hne]

/-- Witness for C5 at a concrete input: a stored record with version 0
(one less than the current version 1) yields the empty bootstrap data and
a deleted record. -/
theorem C5_witness :
    conj_init_setup (fun _ => none)
        (some (PickleContent.record { version := 0 })) =
      ((empty_conjunction_data, none), none) :=
  (C5_try_load_never_crashes (fun _ => none)
      (some (PickleContent.record { version := 0 }))).2
    { version := 0 } rfl (by decide)

/-- C10: a stored record that unpickles and has the current version but a
`pj_dir_name` of `None` trips the `assert ret.pj_dir_name is not None`,
which the `except Exception` clause catches like any other failure: the
record is deleted and the empty bootstrap data returned, even though the
dataclass itself permits `pj_dir_name = None`. -/
theorem C10_record_without_pj_dir_rejected
    (mount : String → Option polyjectory) (cd : conjunction_data)
    (hv : cd.version = cd_cur_version) (hn : cd.pj_dir_name = none) :
    conj_init_setup mount (some (PickleContent.record cd)) =
      ((empty_conjunction_data, none), none) := by
  simp [conj_init_setup, conj_load_body, hv, hn]

/-- Witness for C10 at a concrete input: the default-constructed record
(current version, no `pj_dir_name`) is rejected even though every mount
would succeed. -/
theorem C10_witness :
    conj_init_setup (fun dn => some ⟨0, ["cache", dn]⟩)
        (some (PickleContent.record {})) =
      ((empty_conjunction_data, none), none) :=
  C10_record_without_pj_dir_rejected (fun dn => some ⟨0, ["cache", dn]⟩) {}
    rfl rfl

/-- The sweep keeps every entry whose weak reference still resolves,
unless it aborts before reaching it. -/
theorem sweepLoop_keeps_alive (live : polyjectory → Bool)
    (rmFail : FPath → Bool) (l : List ArchEntry) (a : ArchEntry)
    (ha : a ∈ l) (hl : live a.pj = true) :
    a ∈ (sweepLoop live rmFail l).1 ∨ (sweepLoop live rmFail l).2.2 ≠ none := by
  induction l with
  | nil => cases ha
  | cons b rest ih =>
    rcases List.mem_cons.mp ha with hab | hmem
    · subst hab
      simp [sweepLoop, hl]
    · by_cases hlb : live b.pj = true
      · rcases ih hmem with h1 | h2
        · exact Or.inl (by simp [sweepLoop, hlb, h1])
        · exact Or.inr (by simp [sweepLoop, hlb]; exact h2)
      · by_cases hrb : rmFail b.path = true
        · refine Or.inr ?_
          simp [sweepLoop, hlb, hrb]
        · rcases ih hmem with h1 | h2
          · exact Or.inl (by simp [sweepLoop, hlb, hrb, h1])
          · exact Or.inr (by simp [sweepLoop, hlb, hrb]; exact h2)

/-- Every directory the sweep removes belongs to an entry whose weak
reference was dead. -/
theorem sweepRemoved_are_dead (live : polyjectory → Bool)
    (rmFail : FPath → Bool) (l : List ArchEntry) :
    ∀ p ∈ (sweepLoop live rmFail l).2.1,
      ∃ b ∈ l, b.path = p ∧ live b.pj = false := by
  induction l with
  | nil => intro p hp; simp [sweepLoop] at hp
  | cons b rest ih =>
    intro p hp
    by_cases hlb : live b.pj = true
    · simp only [sweepLoop, hlb, if_pos] at hp
      rcases ih p hp with ⟨c, hc, hcp, hcl⟩
      exact ⟨c, List.mem_cons_of_mem _ hc, hcp, hcl⟩
    · by_cases hrb : rmFail b.path = true
      · simp [sweepLoop, hlb, hrb] at hp
      · simp only [sweepLoop, hlb, hrb, if_false, if_neg, Bool.not_eq_true] at hp
        simp only [List.mem_cons] at hp
        rcases hp with hp | hp
        · exact ⟨b, List.mem_cons_self b rest, hp.symm,
            Bool.not_eq_true _ ▸ (by simpa using hlb)⟩
        · rcases ih p hp with ⟨c, hc, hcp, hcl⟩
          exact ⟨c, List.mem_cons_of_mem _ hc, hcp, hcl⟩

/-- The sweep aborts exactly when some dead entry's directory deletion
fails. -/
theorem sweep_abort_iff (live : polyjectory → Bool) (rmFail : FPath → Bool)
    (l : List ArchEntry) :
    (sweepLoop live rmFail l).2.2 ≠ none ↔
      ∃ a ∈ l, live a.pj = false ∧ rmFail a.path = true := by
  induction l with
  | nil => simp [sweepLoop]
  | cons b rest ih =>
    by_cases hlb : live b.pj = true
    · simp [sweepLoop, hlb, ih]
    · by_cases hrb : rmFail b.path = true
      · simp [sweepLoop, hlb, hrb]
      · simp [sweepLoop, hlb, hrb, ih]

/-- The last component of a resolved cache-dir entry is the entry's name. -/
theorem dirNameOf_resolveEntry (e : FSEntry) :
    dirNameOf (resolveEntry e) = e.name := rfl

/-- The orphan scan is the indicated filter of the cache-dir listing: it
attempts to delete exactly the directories whose name carries the
polyjectory prefix and whose resolved path is not among the alive paths,
and it succeeds on exactly those of them whose deletion does not fail. -/
theorem orphanLoop_eq_filter (rmFail : FPath → Bool) (ap : List FPath)
    (fs : List FSEntry) :
    orphanLoop rmFail ap fs =
      ((fs.filter (fun e => e.isDir && strStartsWith e.name pj_data_pref
          && !(decide (resolveEntry e ∈ ap)))).map resolveEntry,
       ((fs.filter (fun e => e.isDir && strStartsWith e.name pj_data_pref
          && !(decide (resolveEntry e ∈ ap)))).map resolveEntry).filter
          (fun p => !(rmFail p))) := by
  induction fs with
  | nil => rfl
  | cons e rest ih =>
    by_cases hd : e.isDir = true
    · by_cases hs : strStartsWith e.name pj_data_pref = true
      · by_cases hm : resolveEntry e ∈ ap
        · simp [orphanLoop, dirNameOf_resolveEntry, hd, hs, hm, ih,
            List.filter_cons]
        · by_cases hr : rmFail (resolveEntry e) = true
          · simp [orphanLoop, dirNameOf_resolveEntry, hd, hs, hm, hr, ih,
              List.filter_cons]
          · simp [orphanLoop, dirNameOf_resolveEntry, hd, hs, hm, hr, ih,
              List.filter_cons]
      · simp [orphanLoop, dirNameOf_resolveEntry, hd, hs, ih, List.filter_cons]
    · simp [orphanLoop, hd, ih, List.filter_cons]

/-- No path the orphan scan attempts to delete is among the alive paths. -/
theorem orphanAttempted_not_alive (rmFail : FPath → Bool) (ap : List FPath)
    (fs : List FSEntry) :
    ∀ p ∈ (orphanLoop rmFail ap fs).1, p ∉ ap := by
  intro p hp
  rw [orphanLoop_eq_filter] at hp
  simp only [List.mem_map, List.mem_filter] at hp
  rcases hp with ⟨e, ⟨_, hcond⟩, hres⟩
  subst hres
  simp only [Bool.and_eq_true, Bool.not_eq_true', decide_eq_false_iff_not]
    at hcond
  exact hcond.2

/-- Every path the orphan scan removes was attempted. -/
theorem orphanRemoved_sub_attempted (rmFail : FPath → Bool) (ap : List FPath)
    (fs : List FSEntry) :
    ∀ p ∈ (orphanLoop rmFail ap fs).2, p ∈ (orphanLoop rmFail ap fs).1 := by
  intro p hp
  rw [orphanLoop_eq_filter] at hp ⊢
  exact List.mem_of_mem_filter hp

/-- Core preservation lemma: an archive entry whose weak reference still
resolves survives a cleanup pass untouched — it stays in the archive, the
sweep does not remove its directory, and the orphan scan does not even
attempt to delete its path (provided every entry sharing its path is also
alive). -/
theorem cleanup_keeps_alive (live : polyjectory → Bool)
    (rmFail : FPath → Bool) (archive : List ArchEntry) (fs : List FSEntry)
    (a : ArchEntry) (ha : a ∈ archive) (hl : live a.pj = true)
    (hpath : ∀ b ∈ archive, b.path = a.path → live b.pj = true) :
    a ∈ (cache_pj_cleanup live rmFail archive fs).archive
    ∧ a.path ∉ (cache_pj_cleanup live rmFail archive fs).sweepRemoved
    ∧ a.path ∉ (cache_pj_cleanup live rmFail archive fs).orphanAttempted
    ∧ a.path ∉ (cache_pj_cleanup live rmFail archive fs).orphanRemoved := by
  have hdead : a.path ∉ (sweepLoop live rmFail archive).2.1 := by
    intro hmem
    rcases sweepRemoved_are_dead live rmFail archive a.path hmem
      with ⟨b, hb, hbp, hbl⟩
    have := hpath b hb hbp
    rw [this] at hbl
    cases hbl
  unfold cache_pj_cleanup
  cases hab : (sweepLoop live rmFail archive).2.2 with
  | some p =>
    simp only [hab]
    exact ⟨ha, hdead, by simp, by simp⟩
  | none =>
    simp only [hab]
    have hmem : a ∈ (sweepLoop live rmFail archive).1 := by
      rcases sweepLoop_keeps_alive live rmFail archive a ha hl with h | h
      · exact h
      · exact absurd hab h
    refine ⟨hmem, hdead, ?_, ?_⟩
    · intro hc
      exact orphanAttempted_not_alive rmFail _ fs a.path hc
        (List.mem_map_of_mem ArchEntry.path hmem)
    · intro hc
      exact orphanAttempted_not_alive rmFail _ fs a.path
        (orphanRemoved_sub_attempted rmFail _ fs a.path hc)
        (List.mem_map_of_mem ArchEntry.path hmem)

/-- Evaluation of a cleanup pass whose sweep aborts. -/
theorem cleanup_eq_abort (live : polyjectory → Bool) (rmFail : FPath → Bool)
    (archive : List ArchEntry) (fs : List FSEntry) (p : FPath)
    (h : (sweepLoop live rmFail archive).2.2 = some p) :
    cache_pj_cleanup live rmFail archive fs =
      ⟨archive, (sweepLoop live rmFail archive).2.1, some p, [], []⟩ := by
  simp only [cache_pj_cleanup, h]

/-- Evaluation of a cleanup pass whose sweep succeeds. -/
theorem cleanup_eq_ok (live : polyjectory → Bool) (rmFail : FPath → Bool)
    (archive : List ArchEntry) (fs : List FSEntry)
    (h : (sweepLoop live rmFail archive).2.2 = none) :
    cache_pj_cleanup live rmFail archive fs =
      ⟨(sweepLoop live rmFail archive).1, (sweepLoop live rmFail archive).2.1,
        none,
        (orphanLoop rmFail
          ((sweepLoop live rmFail archive).1.map ArchEntry.path) fs).1,
        (orphanLoop rmFail
          ((sweepLoop live rmFail archive).1.map ArchEntry.path) fs).2⟩ := by
  simp only [cache_pj_cleanup, h]

/-- C3 (amended): the sweep step of `_cache_pj_cleanup` does NOT catch
directory-deletion failures — its `shutil.rmtree` call is outside any
`try` block. A cleanup pass propagates an exception to its caller exactly
when some dead entry's recursive deletion fails; when that happens the
pass is aborted: the archive field is left unchanged (the partially built
new archive is discarded) and the orphan scan does not run. Only the
orphan-reconciliation step tolerates deletion failures. -/
theorem C3_sweep_deletion_failure_propagates (live : polyjectory → Bool)
    (rmFail : FPath → Bool) (archive : List ArchEntry) (fs : List FSEntry) :
    ((cache_pj_cleanup live rmFail archive fs).aborted ≠ none ↔
      ∃ a ∈ archive, live a.pj = false ∧ rmFail a.path = true)
    ∧ ∀ p, (cache_pj_cleanup live rmFail archive fs).aborted = some p →
        (cache_pj_cleanup live rmFail archive fs).archive = archive
        ∧ (cache_pj_cleanup live rmFail archive fs).orphanAttempted = [] := by
  have hiff := sweep_abort_iff live rmFail archive
  cases hab : (sweepLoop live rmFail archive).2.2 with
  | some p =>
    rw [cleanup_eq_abort live rmFail archive fs p hab]
    constructor
    · constructor
      · intro _
        exact hiff.mp (by rw [hab]; simp)
      · intro _
        simp
    · intro q _
      exact ⟨rfl, rfl⟩
  | none =>
    rw [cleanup_eq_ok live rmFail archive fs hab]
    constructor
    · constructor
      · intro h
        exact absurd rfl h
      · intro hex
        exact absurd hab (hiff.mpr hex)
    · intro q hq
      cases hq

/-- Counterexample to C3 as stated: a single dead archive entry whose
recursive deletion fails makes the cleanup pass propagate the failure
(`aborted` is set) instead of logging, retaining the directory and
continuing — the orphan scan is not reached. -/
theorem C3_counterexample :
    (cache_pj_cleanup (fun _ => false) (fun _ => true) [deadEntry] []).aborted
        = some ["cache", "mizuba_polyjectory_old"]
    ∧ (cache_pj_cleanup (fun _ => false) (fun _ => true)
        [deadEntry] []).orphanAttempted = [] := by
  exact ⟨rfl, rfl⟩

/-- Witness for the amended C3 at a concrete input: with one dead entry
whose deletion fails, the cleanup pass aborts. -/
theorem C3_witness :
    (cache_pj_cleanup (fun _ => false)
        (fun p => decide (p = pjNew.data_dir))
        [⟨pjNew, pjNew.data_dir⟩] []).aborted ≠ none := by
  exact (C3_sweep_deletion_failure_propagates (fun _ => false)
      (fun p => decide (p = pjNew.data_dir))
      [⟨pjNew, pjNew.data_dir⟩] []).1.mpr
    ⟨⟨pjNew, pjNew.data_dir⟩, by simp, rfl, by simp⟩

/-- C7: when the sweep does not abort, the orphan-reconciliation step
attempts to delete exactly the cache-dir entries that are directories,
whose name starts with the polyjectory prefix and whose resolved absolute
path is not among the alive entries' paths; each such deletion failure is
tolerated (the removals are exactly the attempts whose deletion does not
fail, independent of the other entries). -/
theorem C7_orphan_scan_exact (live : polyjectory → Bool)
    (rmFail : FPath → Bool) (archive : List ArchEntry) (fs : List FSEntry)
    (hok : (cache_pj_cleanup live rmFail archive fs).aborted = none) :
    (cache_pj_cleanup live rmFail archive fs).orphanAttempted =
      (fs.filter (fun e => e.isDir && strStartsWith e.name pj_data_pref
        && !(decide (resolveEntry e ∈
          (cache_pj_cleanup live rmFail archive fs).archive.map
            ArchEntry.path)))).map resolveEntry
    ∧ (cache_pj_cleanup live rmFail archive fs).orphanRemoved =
      (cache_pj_cleanup live rmFail archive fs).orphanAttempted.filter
        (fun p => !(rmFail p)) := by
  cases hab : (sweepLoop live rmFail archive).2.2 with
  | some p =>
    rw [cleanup_eq_abort live rmFail archive fs p hab] at hok
    cases hok
  | none =>
    rw [cleanup_eq_ok live rmFail archive fs hab]
    have h := orphanLoop_eq_filter rmFail
      ((sweepLoop live rmFail archive).1.map ArchEntry.path) fs
    constructor
    · simp only [h]
    · simp only [h]

/-- Witness for C7 at a concrete input: with one alive archive entry, a
stray prefixed directory, the alive entry's own directory, a plain file
and an unrelated directory under the cache dir, exactly the stray
directory is attempted, and it is removed since its deletion succeeds. -/
theorem C7_witness :
    (cache_pj_cleanup (fun _ => true) (fun _ => false)
        [⟨pjNew, pjNew.data_dir⟩]
        [⟨"mizuba_polyjectory_stray", true⟩,
         ⟨"mizuba_polyjectory_new", true⟩,
         ⟨"cd.pickle", false⟩,
         ⟨"unrelated", true⟩]).orphanAttempted =
      [["cache", "mizuba_polyjectory_stray"]] := by
  have h := C7_orphan_scan_exact (fun _ => true) (fun _ => false)
    [⟨pjNew, pjNew.data_dir⟩]
    [⟨"mizuba_polyjectory_stray", true⟩,
     ⟨"mizuba_polyjectory_new", true⟩,
     ⟨"cd.pickle", false⟩,
     ⟨"unrelated", true⟩] rfl
  rw [h.1]
  decide

/-- C8: an archive entry whose weak reference still resolves at sweep time
survives the cleanup pass completely: it is retained in the archive, the
sweep does not delete its directory, and its path is excluded from orphan
deletion in the same pass — so a polyjectory held by any reader or by the
registry survives every cleanup pass, however many newer snapshots exist.
(The side condition asks that entries sharing its path are alive too; in
the source distinct bundles never share a data directory.) -/
theorem C8_referenced_bundle_survives (live : polyjectory → Bool)
    (rmFail : FPath → Bool) (archive : List ArchEntry) (fs : List FSEntry)
    (a : ArchEntry) (ha : a ∈ archive) (hl : live a.pj = true)
    (hpath : ∀ b ∈ archive, b.path = a.path → live b.pj = true) :
    a ∈ (cache_pj_cleanup live rmFail archive fs).archive
    ∧ a.path ∉ (cache_pj_cleanup live rmFail archive fs).sweepRemoved
    ∧ a.path ∉ (cache_pj_cleanup live rmFail archive fs).orphanAttempted
    ∧ a.path ∉ (cache_pj_cleanup live rmFail archive fs).orphanRemoved :=
  cleanup_keeps_alive live rmFail archive fs a ha hl hpath

/-- Witness for C8 at a concrete input: with an alive entry for the old
polyjectory and a dead entry for another one, the old entry survives the
pass and its directory is never deleted, while the cleanup is otherwise
free to act. -/
theorem C8_witness :
    deadEntry ∈ (cache_pj_cleanup (fun b => decide (b = pjOld))
        (fun _ => false) [deadEntry, ⟨pjNew, pjNew.data_dir⟩]
        [⟨"mizuba_polyjectory_old", true⟩]).archive
    ∧ deadEntry.path ∉ (cache_pj_cleanup (fun b => decide (b = pjOld))
        (fun _ => false) [deadEntry, ⟨pjNew, pjNew.data_dir⟩]
        [⟨"mizuba_polyjectory_old", true⟩]).sweepRemoved
    ∧ deadEntry.path ∉ (cache_pj_cleanup (fun b => decide (b = pjOld))
        (fun _ => false) [deadEntry, ⟨pjNew, pjNew.data_dir⟩]
        [⟨"mizuba_polyjectory_old", true⟩]).orphanAttempted
    ∧ deadEntry.path ∉ (cache_pj_cleanup (fun b => decide (b = pjOld))
        (fun _ => false) [deadEntry, ⟨pjNew, pjNew.data_dir⟩]
        [⟨"mizuba_polyjectory_old", true⟩]).orphanRemoved := by
  refine C8_referenced_bundle_survives (fun b => decide (b = pjOld))
    (fun _ => false) [deadEntry, ⟨pjNew, pjNew.data_dir⟩]
    [⟨"mizuba_polyjectory_old", true⟩] deadEntry (by simp) (by decide) ?_
  intro b hb hbp
  simp only [List.mem_cons, List.mem_singleton] at hb
  rcases hb with hb | hb | hb
  · subst hb; decide
  · subst hb
    exact absurd hbp (by decide)
  · cases hb

/-- Counterexample to C9 as stated: in `sEx` the reader still retains the
snapshot `snapOld` (so `snapOld` is reachable and its `pj_dir_name` is
present) but retains no reference to the polyjectory object itself, and
the registry has moved on to `pjNew`; hence no strongly referenced
polyjectory with that directory name exists — `conjunction_data` stores
only the directory-name string, not the bundle — and a cleanup pass whose
liveness is exactly strong-referencedness sweeps the old bundle's
directory away while `snapOld` is still reachable. -/
theorem C9_counterexample :
    snapshot_reachable sEx snapOld
    ∧ snapOld.pj_dir_name = some "mizuba_polyjectory_old"
    ∧ ¬ bundle_live_for sEx "mizuba_polyjectory_old"
    ∧ pjOld.data_dir ∈
        (cache_pj_cleanup (fun b => strongly_referenced sEx b)
          (fun _ => false) [⟨pjOld, pjOld.data_dir⟩] []).sweepRemoved := by
  refine ⟨Or.inr ⟨⟨some snapOld, none⟩, by simp [sEx], rfl⟩, rfl, ?_, by decide⟩
  rintro ⟨b, href, hname⟩
  simp only [strongly_referenced, sEx, List.any_cons, List.any_nil,
    Bool.or_eq_true, decide_eq_true_eq, Option.some.injEq] at href
  rcases href with h | h
  · subst h
    exact absurd hname (by decide)
  · rcases h with h | h
    · cases h
    · cases h

/-- C9 (amended): a snapshot's present `pj_dir_name` guarantees a live
bundle only while some holder retains a strong reference to the
polyjectory object itself — the registry global `_pj` (kept alongside the
current snapshot) or a reader that kept the polyjectory half of the
`_get_conjunctions()` tuple. While such a reference exists, the bundle's
archive entry survives every cleanup pass and its directory is never
deleted; the snapshot value alone does not keep the bundle alive. -/
theorem C9_strong_ref_keeps_bundle (s : SysState) (b : polyjectory)
    (rmFail : FPath → Bool) (archive : List ArchEntry) (fs : List FSEntry)
    (hin : (⟨b, b.data_dir⟩ : ArchEntry) ∈ archive)
    (hl : strongly_referenced s b = true)
    (hpath : ∀ e ∈ archive, e.path = b.data_dir →
      strongly_referenced s e.pj = true) :
    (⟨b, b.data_dir⟩ : ArchEntry) ∈
      (cache_pj_cleanup (strongly_referenced s) rmFail archive fs).archive
    ∧ b.data_dir ∉
      (cache_pj_cleanup (strongly_referenced s) rmFail archive fs).sweepRemoved
    ∧ b.data_dir ∉
      (cache_pj_cleanup (strongly_referenced s) rmFail
          archive fs).orphanAttempted := by
  have h := cleanup_keeps_alive (strongly_referenced s) rmFail archive fs
    ⟨b, b.data_dir⟩ hin hl hpath
  exact ⟨h.1, h.2.1, h.2.2.1⟩

/-- Witness for the amended C9 at a concrete input: the registry retains
`pjNew`, so its entry and directory survive a cleanup pass even when every
deletion would be made to fail. -/
theorem C9_witness :
    (⟨pjNew, pjNew.data_dir⟩ : ArchEntry) ∈
      (cache_pj_cleanup (strongly_referenced sEx) (fun _ => true)
        [⟨pjNew, pjNew.data_dir⟩] []).archive
    ∧ pjNew.data_dir ∉
      (cache_pj_cleanup (strongly_referenced sEx) (fun _ => true)
        [⟨pjNew, pjNew.data_dir⟩] []).sweepRemoved := by
  have h := C9_strong_ref_keeps_bundle sEx pjNew (fun _ => true)
    [⟨pjNew, pjNew.data_dir⟩] [] (by decide) (by decide) ?_
  · exact ⟨h.1, h.2.1⟩
  · intro e he hep
    simp only [List.mem_singleton] at he
    subst he
    decide

/-- The exception handler emits no publish event. -/
theorem handlerEvents_no_publish (env : IterEnv) (cd : conjunction_data) :
    Event.publish cd ∉ (handlerEvents env).1 := by
  by_cases h : env.cleanupHandlerFails = true
  · simp [handlerEvents, h]
  · simp [handlerEvents, h]

/-- The exception handler emits no compute event. -/
theorem handlerEvents_no_compute (env : IterEnv) :
    Event.compute ∉ (handlerEvents env).1 := by
  by_cases h : env.cleanupHandlerFails = true
  · simp [handlerEvents, h]
  · simp [handlerEvents, h]

/-- When the handler's cleanup pass does not raise, the handler logs,
cleans up and sleeps the retry delay, and does not crash. -/
theorem handlerEvents_safe (env : IterEnv)
    (h : env.cleanupHandlerFails = false) :
    handlerEvents env =
      ([Event.logError, Event.cleanup, Event.sleepRetry], false) := by
  simp [handlerEvents, h]

/-- A stale or absent record routes the iteration to the compute phase. -/
theorem runIter_eq_compute (reg : RegState) (archive : List ArchEntry)
    (onDisk : Bool) (env : IterEnv)
    (hstale : onDisk = true → env.ageVal = 0 ∨ MAX_AGE ≤ env.ageVal) :
    runIter reg archive onDisk env = runIterCompute reg archive onDisk env := by
  cases honD : onDisk with
  | false => rfl
  | true =>
    have hguard : ¬ (env.ageVal ≠ 0 ∧ env.ageVal < MAX_AGE) := by
      rcases hstale honD with h0 | hge
      · intro hcon
        exact hcon.1 h0
      · intro hcon
        omega
    simp [runIter, hguard]

/-- C1: in any iteration that reaches persistence (stale or absent record,
successful computation with the expected schema) and whose persistence
fails, the registry value is left exactly as it was before the iteration,
the record at `_cd_path` does not exist after the error handling (the
partial write is unlinked before the exception is re-raised), and no
publish happens in the iteration. -/
theorem C1_persist_failure_preserves_registry (reg : RegState)
    (archive : List ArchEntry) (onDisk : Bool) (env : IterEnv) (r : CompOut)
    (hstale : onDisk = true → env.ageVal = 0 ∨ MAX_AGE ≤ env.ageVal)
    (hc : env.compResult = some r)
    (hs : r.df.schema = conj_df_schema)
    (hp : env.persistOk = false) :
    (runIter reg archive onDisk env).reg = reg
    ∧ (runIter reg archive onDisk env).cdOnDisk = false
    ∧ ∀ cd, Event.publish cd ∉ (runIter reg archive onDisk env).trace := by
  rw [runIter_eq_compute reg archive onDisk env hstale]
  have heq : runIterCompute reg archive onDisk env =
      ⟨reg, archive, false,
        [Event.compute, Event.persistFail, Event.unlinkRecord]
          ++ (handlerEvents env).1, (handlerEvents env).2⟩ := by
    simp [runIterCompute, hc, hs, hp]
  rw [heq]
  refine ⟨rfl, rfl, ?_⟩
  intro cd hmem
  simp only [List.cons_append, List.nil_append, List.mem_cons] at hmem
  rcases hmem with h | h | h | h
  · simp at h
  · simp at h
  · simp at h
  · exact handlerEvents_no_publish env cd h

/-- Witness for C1 at a concrete input: no record on disk, computation
succeeds, persistence fails — the registry keeps the bootstrap value, no
record exists afterwards, and the built snapshot is never published. -/
theorem C1_witness :
    (runIter (empty_conjunction_data, none) [] false envPersistFail).reg
        = (empty_conjunction_data, none)
    ∧ (runIter (empty_conjunction_data, none) [] false envPersistFail).cdOnDisk
        = false
    ∧ Event.publish (buildCData envPersistFail compOutEx)
        ∉ (runIter (empty_conjunction_data, none) [] false envPersistFail).trace := by
  have h := C1_persist_failure_preserves_registry (empty_conjunction_data, none)
    [] false envPersistFail compOutEx
    (fun hx => absurd hx (by decide)) rfl rfl rfl
  exact ⟨h.1, h.2.1, h.2.2 (buildCData envPersistFail compOutEx)⟩

/-- C2: evaluation of the loop body at the failing input. With the cache
record present and its age exactly 0 seconds (0 is within the claimed
interval since 0 < MAX_AGE), the iteration invokes the computation
collaborator `_create_new_conj` — the truthiness guard
`if conj_age and conj_age < MAX_AGE` treats an age of exactly 0 like an
absent record — whereas the otherwise identical iteration with age 1
second takes the fresh branch and does not invoke it. -/
theorem C2_age_zero_invokes_collaborator :
    Event.compute ∈
      (runIter (empty_conjunction_data, none) [] true envAgeZero).trace
    ∧ (0 : Int) < MAX_AGE
    ∧ Event.compute ∉
      (runIter (empty_conjunction_data, none) [] true envAgeOne).trace
    ∧ (runIter (empty_conjunction_data, none) [] true envAgeOne).trace
        = [Event.cleanup, Event.sleepFresh (MAX_AGE - 1)] := by
  refine ⟨?_, by decide, ?_, ?_⟩
  · decide
  · decide
  · decide

/-- An iteration whose handler cleanup does not raise never lets an
exception escape `run`. -/
theorem runIter_no_crash (reg : RegState) (archive : List ArchEntry)
    (onDisk : Bool) (env : IterEnv)
    (h : env.cleanupHandlerFails = false) :
    (runIter reg archive onDisk env).crashed = false := by
  have hh := handlerEvents_safe env h
  simp only [runIter, runIterCompute, hh]
  repeat' split
  all_goals rfl

/-- Evaluation of a loop step that observes the stop event. -/
theorem runLoop_cons_stop (reg : RegState) (archive : List ArchEntry)
    (onDisk : Bool) (env : IterEnv) (rest : List (Bool × IterEnv)) :
    runLoop reg archive onDisk ((true, env) :: rest) =
      ([Event.cleanup], WorkerEnd.stopped) := by
  simp [runLoop]

/-- Evaluation of a non-crashing loop step that does not observe the stop
event. -/
theorem runLoop_cons_go (reg : RegState) (archive : List ArchEntry)
    (onDisk : Bool) (env : IterEnv) (rest : List (Bool × IterEnv))
    (hcr : (runIter reg archive onDisk env).crashed = false) :
    runLoop reg archive onDisk ((false, env) :: rest) =
      ((runIter reg archive onDisk env).trace ++
        (runLoop (runIter reg archive onDisk env).reg
          (runIter reg archive onDisk env).archive
          (runIter reg archive onDisk env).cdOnDisk rest).1,
       (runLoop (runIter reg archive onDisk env).reg
          (runIter reg archive onDisk env).archive
          (runIter reg archive onDisk env).cdOnDisk rest).2) := by
  simp only [runLoop, hcr, Bool.false_eq_true, if_false, ite_false]

/-- C4 (amended): provided no cleanup pass raises (no sweep-step deletion
failure), an exception in a refresh iteration never terminates the worker
— it is caught and the loop continues — the worker ends in the terminal
stopped state exactly when the stop event is observed at some loop entry,
and that termination is always preceded by a final cleanup pass. (As
stated the claim is false: a cleanup pass run in the `except` handler can
itself raise, which terminates the worker without cancellation.) -/
theorem C4_exceptions_do_not_stop_worker (reg : RegState)
    (archive : List ArchEntry) (onDisk : Bool)
    (envs : List (Bool × IterEnv))
    (hsafe : ∀ p ∈ envs, p.2.cleanupHandlerFails = false) :
    (runLoop reg archive onDisk envs).2 ≠ WorkerEnd.crashed
    ∧ ((runLoop reg archive onDisk envs).2 = WorkerEnd.stopped ↔
        envs.any (fun p => p.1) = true)
    ∧ ((runLoop reg archive onDisk envs).2 = WorkerEnd.stopped →
        ∃ t, (runLoop reg archive onDisk envs).1 = t ++ [Event.cleanup]) := by
  induction envs generalizing reg archive onDisk with
  | nil => simp [runLoop]
  | cons p rest ih =>
    obtain ⟨stop, env⟩ := p
    have henv : env.cleanupHandlerFails = false :=
      hsafe (stop, env) (List.mem_cons_self _ _)
    have hrest : ∀ q ∈ rest, q.2.cleanupHandlerFails = false :=
      fun q hq => hsafe q (List.mem_cons_of_mem _ hq)
    cases stop with
    | true =>
      rw [runLoop_cons_stop]
      refine ⟨by simp, by simp, ?_⟩
      intro _
      exact ⟨[], rfl⟩
    | false =>
      have hcr := runIter_no_crash reg archive onDisk env henv
      rw [runLoop_cons_go reg archive onDisk env rest hcr]
      obtain ⟨h1, h2, h3⟩ := ih (runIter reg archive onDisk env).reg
        (runIter reg archive onDisk env).archive
        (runIter reg archive onDisk env).cdOnDisk hrest
      refine ⟨by simpa using h1, ?_, ?_⟩
      · simpa using h2
      · intro hstopped
        rcases h3 (by simpa using hstopped) with ⟨t, ht⟩
        refine ⟨(runIter reg archive onDisk env).trace ++ t, ?_⟩
        simp [ht]

/-- Counterexample to C4 as stated: the computation raises (the exception
is caught and logged), but the cleanup pass run by the handler raises in
turn; the exception escapes `run` and the worker terminates although the
stop event was never set — and without the final cleanup pass that only a
stop-event exit performs. -/
theorem C4_counterexample :
    (runLoop (empty_conjunction_data, none) [] false [(false, envCrash)]).2
      = WorkerEnd.crashed := by
  decide

/-- Witness for the amended C4 at a concrete input: a successful iteration
followed by an observed stop event ends the worker in the stopped state,
not crashed, with the trace ending in the final cleanup pass. -/
theorem C4_witness :
    (runLoop (empty_conjunction_data, none) [] false
        [(false, envAllOk), (true, envAllOk)]).2 ≠ WorkerEnd.crashed
    ∧ ∃ t, (runLoop (empty_conjunction_data, none) [] false
        [(false, envAllOk), (true, envAllOk)]).1 = t ++ [Event.cleanup] := by
  have h := C4_exceptions_do_not_stop_worker (empty_conjunction_data, none) []
    false [(false, envAllOk), (true, envAllOk)] ?_
  · exact ⟨h.1, h.2.2 (h.2.1.mpr (by decide))⟩
  · intro p hp
    rcases List.mem_cons.mp hp with h | h
    · subst h
      rfl
    · rcases List.mem_cons.mp h with h | h
      · subst h
        rfl
      · cases h

/-- List surgery: if a list splits as `l1 ++ x :: l2` where no element of
`l1` or `l2` satisfies `P` but `x` does, then any split `pre ++ y :: post`
of the same list with `P y` is that same split: `pre = l1`, `y = x`,
`post = l2`. -/
theorem eq_of_unique_cons_split {α : Type} (P : α → Prop) (l1 : List α) :
    ∀ (l2 pre post : List α) (x y : α),
      l1 ++ x :: l2 = pre ++ y :: post →
      (∀ a ∈ l1, ¬ P a) → (∀ a ∈ l2, ¬ P a) → P x → P y →
      pre = l1 ∧ y = x ∧ post = l2 := by
  induction l1 with
  | nil =>
    intro l2 pre post x y h _ hl2 hx hy
    cases pre with
    | nil =>
      simp only [List.nil_append] at h
      injection h with h1 h2
      exact ⟨rfl, h1.symm, h2.symm⟩
    | cons p pt =>
      simp only [List.nil_append, List.cons_append, List.cons.injEq] at h
      obtain ⟨_, h2⟩ := h
      have hyl2 : y ∈ l2 := by
        rw [h2]
        exact List.mem_append_right pt (List.mem_cons_self _ _)
      exact absurd hy (hl2 y hyl2)
  | cons a t ih =>
    intro l2 pre post x y h hl1 hl2 hx hy
    cases pre with
    | nil =>
      simp only [List.cons_append, List.nil_append] at h
      injection h with h1 _
      subst h1
      exact absurd hy (hl1 a (List.mem_cons_self a t))
    | cons p pt =>
      simp only [List.cons_append, List.cons.injEq] at h
      obtain ⟨h1, h2⟩ := h
      subst h1
      have hl1t : ∀ b ∈ t, ¬ P b := fun b hb => hl1 b (List.mem_cons_of_mem a hb)
      obtain ⟨hp, hyx, hpost⟩ := ih l2 pt post x y h2 hl1t hl2 hx hy
      exact ⟨by rw [hp], hyx, hpost⟩

/-- Shape of the compute phase's trace with respect to publish events:
either no publish occurs, or the trace is compute, record write, archive
registration of the new polyjectory's directory, publish of the snapshot
built from the computation result, in exactly that order, followed by a
publish-free tail. -/
theorem runIterCompute_publish_shape (reg : RegState)
    (archive : List ArchEntry) (onDisk : Bool) (env : IterEnv) :
    (∀ cd, Event.publish cd ∉ (runIterCompute reg archive onDisk env).trace)
    ∨ ∃ r rest, env.compResult = some r
        ∧ (∀ cd, Event.publish cd ∉ rest)
        ∧ (runIterCompute reg archive onDisk env).trace =
          [Event.compute, Event.persistWrite, Event.registerPj r.pj.data_dir]
            ++ Event.publish (buildCData env r) :: rest := by
  cases hcr : env.compResult with
  | none =>
    left
    intro cd hmem
    simp only [runIterCompute, hcr] at hmem
    rcases List.mem_cons.mp hmem with h | h
    · simp at h
    · exact handlerEvents_no_publish env cd h
  | some r =>
    by_cases hsch : r.df.schema = conj_df_schema
    · by_cases hpk : env.persistOk = true
      · by_cases hctf : env.cleanupTryFails = true
        · right
          refine ⟨r, Event.cleanup :: (handlerEvents env).1, rfl, ?_, ?_⟩
          · intro cd hmem
            rcases List.mem_cons.mp hmem with h | h
            · simp at h
            · exact handlerEvents_no_publish env cd h
          · simp [runIterCompute, hcr, hsch, hpk, hctf]
        · right
          refine ⟨r, [Event.cleanup, Event.sleepMax], rfl, ?_, ?_⟩
          · intro cd
            simp
          · simp [runIterCompute, hcr, hsch, hpk, hctf]
      · left
        intro cd hmem
        simp only [runIterCompute, hcr] at hmem
        rw [if_neg (by simp [hsch])] at hmem
        rw [if_neg (by simpa using hpk)] at hmem
        simp only [List.cons_append, List.nil_append, List.mem_cons] at hmem
        rcases hmem with h | h | h | h
        · simp at h
        · simp at h
        · simp at h
        · exact handlerEvents_no_publish env cd h
    · left
      intro cd hmem
      simp only [runIterCompute, hcr] at hmem
      rw [if_pos (by simpa using hsch)] at hmem
      rcases List.mem_cons.mp hmem with h | h
      · simp at h
      · exact handlerEvents_no_publish env cd h

/-- Shape of a full iteration's trace with respect to publish events. -/
theorem runIter_publish_shape (reg : RegState) (archive : List ArchEntry)
    (onDisk : Bool) (env : IterEnv) :
    (∀ cd, Event.publish cd ∉ (runIter reg archive onDisk env).trace)
    ∨ ∃ r rest, env.compResult = some r
        ∧ (∀ cd, Event.publish cd ∉ rest)
        ∧ (runIter reg archive onDisk env).trace =
          [Event.compute, Event.persistWrite, Event.registerPj r.pj.data_dir]
            ++ Event.publish (buildCData env r) :: rest := by
  cases onDisk with
  | false =>
    rw [show runIter reg archive false env
        = runIterCompute reg archive false env from rfl]
    exact runIterCompute_publish_shape reg archive false env
  | true =>
    by_cases hg : env.ageVal ≠ 0 ∧ env.ageVal < MAX_AGE
    · by_cases hctf : env.cleanupTryFails = true
      · left
        intro cd hmem
        simp [runIter, hg.1, hg.2, hctf] at hmem
        exact handlerEvents_no_publish env cd hmem
      · left
        intro cd hmem
        simp [runIter, hg.1, hg.2, hctf] at hmem
    · have heq : runIter reg archive true env
          = runIterCompute reg archive true env := by
        simp [runIter, hg]
      rw [heq]
      exact runIterCompute_publish_shape reg archive true env

/-- C6: whenever an iteration publishes a snapshot, the events before the
publish are exactly the computation, then the cache record write, then the
registration of the new polyjectory's directory in the archive, in that
order; the published snapshot is the one built from the computation result
and its `pj_dir_name` names that same registered directory. In particular
the record write precedes the registration, which precedes the publish,
and publication never precedes persistence or registration. -/
theorem C6_persist_register_publish_order (reg : RegState)
    (archive : List ArchEntry) (onDisk : Bool) (env : IterEnv)
    (pre post : List Event) (cd : conjunction_data)
    (h : (runIter reg archive onDisk env).trace
        = pre ++ Event.publish cd :: post) :
    ∃ r, env.compResult = some r
      ∧ cd = buildCData env r
      ∧ cd.pj_dir_name = some (dirNameOf r.pj.data_dir)
      ∧ pre = [Event.compute, Event.persistWrite,
          Event.registerPj r.pj.data_dir] := by
  rcases runIter_publish_shape reg archive onDisk env with
    hno | ⟨r, rest, hcr, hnorest, hshape⟩
  · have hmem : Event.publish cd ∈ (runIter reg archive onDisk env).trace := by
      rw [h]
      exact List.mem_append_right pre (List.mem_cons_self _ _)
    exact absurd hmem (hno cd)
  · rw [hshape] at h
    have hsplit := eq_of_unique_cons_split (fun e => ∃ c, e = Event.publish c)
      [Event.compute, Event.persistWrite, Event.registerPj r.pj.data_dir]
      rest pre post (Event.publish (buildCData env r)) (Event.publish cd)
      h ?_ ?_ ⟨buildCData env r, rfl⟩ ⟨cd, rfl⟩
    · obtain ⟨hpre, hyx, _⟩ := hsplit
      injection hyx with hcd
      refine ⟨r, hcr, hcd, ?_, hpre⟩
      rw [hcd]
      rfl
    · intro a ha
      rcases List.mem_cons.mp ha with h1 | h1
      · subst h1
        rintro ⟨c, hc⟩
        cases hc
      · rcases List.mem_cons.mp h1 with h2 | h2
        · subst h2
          rintro ⟨c, hc⟩
          cases hc
        · rcases List.mem_cons.mp h2 with h3 | h3
          · subst h3
            rintro ⟨c, hc⟩
            cases hc
          · cases h3
    · intro a ha
      rintro ⟨c, hc⟩
      subst hc
      exact hnorest c ha

/-- Witness for C6 at a concrete input: splitting the all-success
iteration's trace at its publish event yields exactly the prefix
computation, record write, registration of the new bundle's directory,
with the published snapshot built from the computation result and naming
that directory. -/
theorem C6_witness :
    ∃ r, envAllOk.compResult = some r
      ∧ buildCData envAllOk compOutEx = buildCData envAllOk r
      ∧ (buildCData envAllOk compOutEx).pj_dir_name
          = some (dirNameOf r.pj.data_dir)
      ∧ [Event.compute, Event.persistWrite, Event.registerPj pjNew.data_dir]
          = [Event.compute, Event.persistWrite,
              Event.registerPj r.pj.data_dir] :=
  C6_persist_register_publish_order (empty_conjunction_data, none) [] false
    envAllOk
    [Event.compute, Event.persistWrite, Event.registerPj pjNew.data_dir]
    [Event.cleanup, Event.sleepMax] (buildCData envAllOk compOutEx) (by decide)
